import Mathlib

/-!
Verification development for the lokutor orchestrator core: a shallow
embedding of the conversation session (bounded message window), the
STT → LLM → TTS pipeline controller, and the RMS voice-activity detector,
together with proofs about the behaviours described in the design notes.

Go integers (`int`) are modelled as `ℤ`, byte slices as `List Nat`
(entries reduced mod 256 where they are read as bytes), `float64` sample
energies as exact rationals `ℚ`, with the single NaN that the code can
produce (`Sqrt(0/0)` on a one-byte frame) modelled as `none : Option ℚ`
since IEEE NaN compares false with everything, and the irrational square
root modelled by an uninterpreted function parameter `sqrtF : ℚ → ℚ`
(the detector only ever passes the square root value onwards, so every
theorem below holds for an arbitrary `sqrtF`).
-/

namespace Lokutor

attribute [local semireducible] Rat.add Rat.mul Rat.sub Rat.inv

/-- Voice represents a voice style (Go: `type Voice string`). -/
abbrev Voice := String

/-- Language represents supported languages (Go: `type Language string`). -/
abbrev Language := String

/-- Message represents a conversation message (`{Role, Content}`). -/
structure Message where
  Role : String
  Content : String
deriving DecidableEq, Repr

/-- ConversationSession: identity, ordered turn history, cached last turns,
sliding-window cap and per-session voice/language settings. -/
structure ConversationSession where
  ID : String
  Context : List Message
  LastUser : String
  LastAssistant : String
  MaxMessages : ℤ
  CurrentVoice : Voice
  CurrentLanguage : Language
deriving DecidableEq, Repr

/-- NewConversationSession creates a new conversation session
(Go zero values for the cached last-turn strings). -/
def NewConversationSession (userID : String) : ConversationSession :=
  { ID := userID
    Context := []
    LastUser := ""
    LastAssistant := ""
    MaxMessages := 20
    CurrentVoice := "F1"
    CurrentLanguage := "en" }

/-- AddMessage appends a message and then enforces the window by the Go
slice `s.Context[len(s.Context)-s.MaxMessages:]`; the slice offset is an
`int` and is taken here through `Int.toNat`, which agrees with Go whenever
the offset is in bounds (see `AddMessageChecked` for the bounds check). -/
def ConversationSession.AddMessage (s : ConversationSession) (role content : String) :
    ConversationSession :=
  let ctx0 : List Message := s.Context ++ [{ Role := role, Content := content }]
  let ctx : List Message :=
    if (ctx0.length : ℤ) > s.MaxMessages then
      ctx0.drop ((ctx0.length : ℤ) - s.MaxMessages).toNat
    else ctx0
  if role = "user" then { s with Context := ctx, LastUser := content }
  else if role = "assistant" then { s with Context := ctx, LastAssistant := content }
  else { s with Context := ctx }

/-- Go slice expression `l[lo:]`: `none` models the run-time panic on an
out-of-bounds offset. -/
def goSliceFrom (l : List Message) (lo : ℤ) : Option (List Message) :=
  if 0 ≤ lo ∧ lo ≤ (l.length : ℤ) then some (l.drop lo.toNat) else none

/-- AddMessage with the Go slice-bounds check made explicit: `none` models
a panic of `s.Context[len(s.Context)-s.MaxMessages:]`. -/
def ConversationSession.AddMessageChecked (s : ConversationSession) (role content : String) :
    Option ConversationSession :=
  let ctx0 : List Message := s.Context ++ [{ Role := role, Content := content }]
  let ctx? : Option (List Message) :=
    if (ctx0.length : ℤ) > s.MaxMessages then
      goSliceFrom ctx0 ((ctx0.length : ℤ) - s.MaxMessages)
    else some ctx0
  ctx?.map fun ctx =>
    if role = "user" then { s with Context := ctx, LastUser := content }
    else if role = "assistant" then { s with Context := ctx, LastAssistant := content }
    else { s with Context := ctx }

/-- ClearContext clears the conversation history. -/
def ConversationSession.ClearContext (s : ConversationSession) : ConversationSession :=
  { s with Context := [], LastUser := "", LastAssistant := "" }

/-- The last `k` elements of a list, in order (what the Go front-trim keeps). -/
def takeLast (k : Nat) (l : List α) : List α := l.drop (l.length - k)

/-- Characters trimmed by Go's `strings.TrimSpace` (`unicode.IsSpace`):
ASCII whitespace, NEL, NBSP and the Unicode White_Space code points. -/
def goIsSpace (c : Char) : Bool :=
  c.toNat = 9 || c.toNat = 10 || c.toNat = 11 || c.toNat = 12 || c.toNat = 13 ||
  c.toNat = 32 || c.toNat = 0x85 || c.toNat = 0xA0 || c.toNat = 0x1680 ||
  (0x2000 ≤ c.toNat && c.toNat ≤ 0x200A) ||
  c.toNat = 0x2028 || c.toNat = 0x2029 || c.toNat = 0x202F || c.toNat = 0x205F ||
  c.toNat = 0x3000

/-- Go `strings.TrimSpace`: drop leading and trailing whitespace. -/
def trimSpace (s : String) : String :=
  ⟨((s.data.dropWhile goIsSpace).reverse.dropWhile goIsSpace).reverse⟩

/-- Orchestrator: the three provider collaborators, modelled as pure
functions (`Except` models the Go `(value, error)` pair). -/
structure Orchestrator where
  stt : List Nat → Except String String
  llm : List Message → Except String String
  tts : String → Voice → Except String (List Nat)
  ttsStream : String → Voice → (List Nat → Except String Unit) → Except String Unit

/-- One provider call made during a pipeline run, with its argument. -/
inductive CallEvent where
  | sttCall (audio : List Nat)
  | llmCall (messages : List Message)
  | ttsCall (text : String) (voice : Voice)
  | ttsStreamCall (text : String) (voice : Voice)
deriving DecidableEq, Repr

/-- Transcribe converts audio to text (delegates to the STT provider). -/
def Orchestrator.Transcribe (o : Orchestrator) (audioData : List Nat) :
    Except String String :=
  o.stt audioData

/-- GenerateResponse gets an LLM response based on session context
(Go: `o.llm.Complete(ctx, session.Context)`). -/
def Orchestrator.GenerateResponse (o : Orchestrator) (session : ConversationSession) :
    Except String String :=
  o.llm session.Context

/-- Synthesize converts text to speech audio. -/
def Orchestrator.Synthesize (o : Orchestrator) (text : String) (voice : Voice) :
    Except String (List Nat) :=
  o.tts text voice

/-- SynthesizeStream converts text to speech with streaming. -/
def Orchestrator.SynthesizeStream (o : Orchestrator) (text : String) (voice : Voice)
    (onChunk : List Nat → Except String Unit) : Except String Unit :=
  o.ttsStream text voice onChunk

/-- Result of `ProcessAudio`: the Go return triple `(string, []byte, error)`
plus the state of the (pointer-mutated) session and the trace of provider
calls made, in order. -/
structure PAResult where
  transcript : String
  audio : List Nat
  error : Option String
  session : ConversationSession
  calls : List CallEvent
deriving DecidableEq, Repr

/-- ProcessAudio handles the full pipeline: STT -> LLM -> TTS. -/
def Orchestrator.ProcessAudio (o : Orchestrator) (session : ConversationSession)
    (audioData : List Nat) : PAResult :=
  match o.Transcribe audioData with
  | .error e =>
      { transcript := "", audio := [], error := some ("transcription failed: " ++ e)
        session := session, calls := [.sttCall audioData] }
  | .ok transcript =>
    if trimSpace transcript = "" then
      { transcript := "", audio := [], error := some "empty transcription"
        session := session, calls := [.sttCall audioData] }
    else
      let session1 := session.AddMessage "user" transcript
      match o.GenerateResponse session1 with
      | .error e =>
          { transcript := transcript, audio := [], error := some ("LLM failed: " ++ e)
            session := session1
            calls := [.sttCall audioData, .llmCall session1.Context] }
      | .ok response =>
        let session2 := session1.AddMessage "assistant" response
        match o.Synthesize response session2.CurrentVoice with
        | .error e =>
            { transcript := transcript, audio := [], error := some ("TTS failed: " ++ e)
              session := session2
              calls := [.sttCall audioData, .llmCall session1.Context,
                        .ttsCall response session2.CurrentVoice] }
        | .ok audioBytes =>
            { transcript := transcript, audio := audioBytes, error := none
              session := session2
              calls := [.sttCall audioData, .llmCall session1.Context,
                        .ttsCall response session2.CurrentVoice] }

/-- Result of `ProcessAudioStream`: the Go pair `(string, error)` plus
session state and provider-call trace. -/
structure PASResult where
  transcript : String
  error : Option String
  session : ConversationSession
  calls : List CallEvent
deriving DecidableEq, Repr

/-- ProcessAudioStream handles streaming TTS output. -/
def Orchestrator.ProcessAudioStream (o : Orchestrator) (session : ConversationSession)
    (audioData : List Nat) (onAudioChunk : List Nat → Except String Unit) : PASResult :=
  match o.Transcribe audioData with
  | .error e =>
      { transcript := "", error := some ("transcription failed: " ++ e)
        session := session, calls := [.sttCall audioData] }
  | .ok transcript =>
    if trimSpace transcript = "" then
      { transcript := "", error := some "empty transcription"
        session := session, calls := [.sttCall audioData] }
    else
      let session1 := session.AddMessage "user" transcript
      match o.GenerateResponse session1 with
      | .error e =>
          { transcript := transcript, error := some ("LLM failed: " ++ e)
            session := session1
            calls := [.sttCall audioData, .llmCall session1.Context] }
      | .ok response =>
        let session2 := session1.AddMessage "assistant" response
        match o.SynthesizeStream response session2.CurrentVoice onAudioChunk with
        | .error e =>
            { transcript := transcript, error := some ("TTS stream failed: " ++ e)
              session := session2
              calls := [.sttCall audioData, .llmCall session1.Context,
                        .ttsStreamCall response session2.CurrentVoice] }
        | .ok _ =>
            { transcript := transcript, error := none
              session := session2
              calls := [.sttCall audioData, .llmCall session1.Context,
                        .ttsStreamCall response session2.CurrentVoice] }

/-- VADEvent type: speech start, speech end, or silence. -/
inductive VADEventType where
  | speechStart
  | speechEnd
  | silence
deriving DecidableEq, Repr

/-- VADEvent with its epoch-millisecond timestamp (the Go field `Type`
is spelt `Typ` since `Type` is reserved in Lean). -/
structure VADEvent where
  Typ : VADEventType
  Timestamp : ℤ
deriving DecidableEq, Repr

/-- Go `time.Time.UnixMilli` on a nanosecond timestamp. -/
def unixMilli (ns : ℤ) : ℤ := ns / 1000000

/-- RMSVAD internal state. Times are epoch nanoseconds (`time.Time` /
`time.Duration` are int64 nanosecond counts); the zero `time.Time` used
for an unset silence timer is `none`. `lastRMS` is `Option ℚ` because a
one-byte frame makes the Go code compute `Sqrt(0/0) = NaN` (`none`). -/
structure RMSVAD where
  threshold : ℚ
  silenceLimit : ℤ
  isSpeaking : Bool
  silenceStart : Option ℤ
  adaptiveMode : Bool
  noiseFloor : ℚ
  alpha : ℚ
  consecutiveFrames : ℤ
  minConfirmed : ℤ
  lastRMS : Option ℚ
deriving DecidableEq, Repr

/-- NewRMSVAD creates a new RMS-based VAD (Go zero values for the fields
the constructor does not set). -/
def NewRMSVAD (threshold : ℚ) (silenceLimit : ℤ) : RMSVAD :=
  { threshold := threshold
    silenceLimit := silenceLimit
    minConfirmed := 7
    adaptiveMode := true
    noiseFloor := mkRat 1 200
    alpha := mkRat 1 20
    isSpeaking := false
    silenceStart := none
    consecutiveFrames := 0
    lastRMS := some 0 }

/-- The adaptive noise-floor update performed inside `if v.adaptiveMode`:
snap down to a quieter frame, else nudge up while not speaking and the
frame is relatively low. A NaN energy (`none`) fails both float
comparisons, so the floor is untouched. -/
def RMSVAD.adaptStage (v : RMSVAD) (rms : Option ℚ) : RMSVAD :=
  match rms with
  | none => v
  | some r =>
    if r < v.noiseFloor then { v with noiseFloor := r }
    else if !v.isSpeaking && r < v.threshold * 2 then
      { v with noiseFloor := (1 - v.alpha) * v.noiseFloor + v.alpha * r }
    else v

/-- The effective threshold computed by `Process`: with adaptive mode on,
`max(threshold, 2 * noiseFloor)` capped at 0.3; otherwise the static
threshold. -/
def RMSVAD.effectiveThreshold (v : RMSVAD) : ℚ :=
  if v.adaptiveMode then
    let e0 := v.threshold
    let adaptiveThreshold := v.noiseFloor * 2
    let e1 := if adaptiveThreshold > e0 then adaptiveThreshold else e0
    if e1 > mkRat 3 10 then mkRat 3 10 else e1
  else v.threshold

/-- Detector state after the `lastRMS` write and the adaptive-floor update
of one `Process` call, before the frame is classified. -/
def RMSVAD.preState (v : RMSVAD) (rms : Option ℚ) : RMSVAD :=
  let v1 : RMSVAD := { v with lastRMS := rms }
  if v1.adaptiveMode then v1.adaptStage rms else v1

/-- The effective threshold `Process` uses to classify a frame of energy
`rms` when run on state `v`. -/
def RMSVAD.effAt (v : RMSVAD) (rms : Option ℚ) : ℚ :=
  (v.preState rms).effectiveThreshold

/-- Go float `rms > eff` where `rms` may be NaN (NaN compares false). -/
def egt : Option ℚ → ℚ → Bool
  | none, _ => false
  | some r, b => r > b

/-- The state-machine core of `RMSVAD.Process`, acting on the computed
frame energy. `now` is the value of `time.Now()` in epoch nanoseconds. -/
def RMSVAD.processRMS (v0 : RMSVAD) (rms : Option ℚ) (now : ℤ) :
    RMSVAD × Option VADEvent :=
  let v2 := v0.preState rms
  let eff := v2.effectiveThreshold
  if egt rms eff then
    let v3 : RMSVAD := { v2 with consecutiveFrames := v2.consecutiveFrames + 1 }
    if !v3.isSpeaking then
      if v3.consecutiveFrames ≥ v3.minConfirmed then
        ({ v3 with isSpeaking := true },
         some { Typ := .speechStart, Timestamp := unixMilli now })
      else (v3, none)
    else ({ v3 with silenceStart := none }, none)
  else
    let v3 : RMSVAD := { v2 with consecutiveFrames := 0 }
    if v3.isSpeaking then
      let v4 : RMSVAD :=
        if v3.silenceStart.isNone then { v3 with silenceStart := some now } else v3
      match v4.silenceStart with
      | some t0 =>
        if now - t0 ≥ v4.silenceLimit then
          ({ v4 with isSpeaking := false, silenceStart := none },
           some { Typ := .speechEnd, Timestamp := unixMilli now })
        else (v4, some { Typ := .silence, Timestamp := unixMilli now })
      | none => (v4, some { Typ := .silence, Timestamp := unixMilli now })
    else (v3, some { Typ := .silence, Timestamp := unixMilli now })

/-- Go `int16(chunk[i]) | (int16(chunk[i+1]) << 8)`: the two bytes as a
little-endian two's-complement 16-bit sample. -/
def toInt16 (n : Nat) : ℤ :=
  let m := n % 65536
  if m < 32768 then (m : ℤ) else (m : ℤ) - 65536

/-- One sample from a byte pair, normalised to full scale:
`float64(sample) / 32768.0`. -/
def sampleF (lo hi : Nat) : ℚ :=
  Rat.div ((toInt16 (lo % 256 + (hi % 256) * 256) : ℤ) : ℚ) 32768

/-- The loop `for i := 0; i < len(chunk)-1; i += 2 { sum += f*f }`: sum of
squared normalised samples over complete byte pairs (a trailing lone byte
is never read). -/
def sumSquares : List Nat → ℚ
  | lo :: hi :: rest => sampleF lo hi * sampleF lo hi + sumSquares rest
  | _ => 0

/-- calculateRMS: 0 for an empty chunk, else
`Sqrt(sum / float64(len(chunk)/2))`. For a one-byte chunk the divisor
`len(chunk)/2` is 0 and the Go float division yields `0/0 = NaN`, which
`math.Sqrt` propagates: that is the `none` branch (note `sqrtF` is never
consulted, exactly as `Sqrt(NaN) = NaN` ignores the radicand). -/
def calculateRMS (sqrtF : ℚ → ℚ) (chunk : List Nat) : Option ℚ :=
  if chunk.length = 0 then some 0
  else
    let samples := chunk.length / 2
    if samples = 0 then none
    else some (sqrtF (Rat.div (sumSquares chunk) (samples : ℚ)))

/-- Result of `RMSVAD.Process`: the Go pair `(*VADEvent, error)` plus the
mutated detector state. -/
structure ProcessOut where
  state : RMSVAD
  event : Option VADEvent
  err : Option String
deriving DecidableEq, Repr

/-- Process classifies one PCM frame; the Go method returns a nil error on
every path. -/
def RMSVAD.Process (sqrtF : ℚ → ℚ) (v : RMSVAD) (chunk : List Nat) (now : ℤ) :
    ProcessOut :=
  let p := v.processRMS (calculateRMS sqrtF chunk) now
  { state := p.1, event := p.2, err := none }

/-- Reset clears the speaking flag, silence timer and consecutive-frame
counter. -/
def RMSVAD.Reset (v : RMSVAD) : RMSVAD :=
  { v with isSpeaking := false, silenceStart := none, consecutiveFrames := 0 }

/-- Clone returns a fresh detector carrying only the threshold, silence
limit and confirmation count (Go zero values everywhere else). -/
def RMSVAD.Clone (v : RMSVAD) : RMSVAD :=
  { threshold := v.threshold
    silenceLimit := v.silenceLimit
    minConfirmed := v.minConfirmed
    isSpeaking := false
    silenceStart := none
    adaptiveMode := false
    noiseFloor := 0
    alpha := 0
    consecutiveFrames := 0
    lastRMS := some 0 }

/-- Run the detector over a sequence of (frame energy, `time.Now()`)
pairs, collecting the event emitted (or not) for each frame. -/
def RMSVAD.runVAD (v : RMSVAD) : List (ℚ × ℤ) → RMSVAD × List (Option VADEvent)
  | [] => (v, [])
  | (r, t) :: fs =>
    let p := v.processRMS (some r) t
    let q := p.1.runVAD fs
    (q.1, p.2 :: q.2)

/-- Every frame's energy stays at or below the effective threshold its
`Process` call uses (the spec's "silent frame sequence"). -/
def RMSVAD.allBelowB (v : RMSVAD) : List (ℚ × ℤ) → Bool
  | [] => true
  | (r, t) :: fs =>
    !egt (some r) (v.effAt (some r)) && (v.processRMS (some r) t).1.allBelowB fs

/-- Every frame's energy exceeds the effective threshold its `Process`
call uses (the spec's "run of frames above threshold"). -/
def RMSVAD.allAboveB (v : RMSVAD) : List (ℚ × ℤ) → Bool
  | [] => true
  | (r, t) :: fs =>
    egt (some r) (v.effAt (some r)) && (v.processRMS (some r) t).1.allAboveB fs

/-- Whether an emitted event is a SpeechStart. -/
def isStartEv : Option VADEvent → Bool
  | some { Typ := .speechStart, Timestamp := _ } => true
  | _ => false

/-- Apply a sequence of `AddMessage` calls to a session, in order. -/
def runAdds (s : ConversationSession) (msgs : List (String × String)) : ConversationSession :=
  msgs.foldl (fun acc p => acc.AddMessage p.1 p.2) s

/-- Whether a recorded provider call is an LLM `Complete` call. -/
def CallEvent.isLLM : CallEvent → Bool
  | .llmCall _ => true
  | _ => false

/-- Concrete providers for witnesses: STT hears "hello", the LLM replies
"hi!", synthesis succeeds. -/
def oGood : Orchestrator :=
  { stt := fun _ => .ok "hello"
    llm := fun _ => .ok "hi!"
    tts := fun _ _ => .ok [1, 2]
    ttsStream := fun _ _ _ => .ok () }

/-- Concrete providers whose synthesis stage fails. -/
def oTTSFail : Orchestrator :=
  { stt := fun _ => .ok "hi there"
    llm := fun _ => .ok "yo"
    tts := fun _ _ => .error "boom"
    ttsStream := fun _ _ _ => .error "boom" }

/-- Concrete providers that transcribe to whitespace only. -/
def oBlank : Orchestrator :=
  { stt := fun _ => .ok "   "
    llm := fun _ => .error "not reached"
    tts := fun _ _ => .error "not reached"
    ttsStream := fun _ _ _ => .error "not reached" }

theorem takeLast_length (k : Nat) (l : List α) : (takeLast k l).length = min k l.length := by
  simp only [takeLast, List.length_drop]
  omega

theorem takeLast_eq_self {k : Nat} {l : List α} (h : l.length ≤ k) : takeLast k l = l := by
  simp only [takeLast]
  rw [Nat.sub_eq_zero_of_le h, List.drop_zero]

theorem takeLast_append_right {k : Nat} (xs ys : List α) (h : ys.length ≤ k) :
    takeLast k (xs ++ ys) = takeLast (k - ys.length) xs ++ ys := by
  simp only [takeLast, List.length_append]
  rw [List.drop_append_of_le_length (by omega)]
  congr 2
  omega

theorem takeLast_append_takeLast (k : Nat) (xs ys : List α) :
    takeLast k (takeLast k xs ++ ys) = takeLast k (xs ++ ys) := by
  simp only [takeLast]
  rw [List.drop_append_eq_append_drop, List.drop_append_eq_append_drop, List.drop_drop]
  simp only [List.length_append, List.length_drop]
  congr 1
  · congr 1
    omega
  · congr 1
    omega

theorem goTrim_eq_takeLast {m : ℤ} (hm : 0 ≤ m) (l : List α) :
    (if (l.length : ℤ) > m then l.drop ((l.length : ℤ) - m).toNat else l)
      = takeLast m.toNat l := by
  simp only [takeLast]
  split
  · congr 1
    omega
  · rw [show l.length - m.toNat = 0 by omega, List.drop_zero]

theorem AddMessage_Context (s : ConversationSession) (role content : String)
    (hm : 0 ≤ s.MaxMessages) :
    (s.AddMessage role content).Context
      = takeLast s.MaxMessages.toNat (s.Context ++ [{ Role := role, Content := content }]) := by
  have hctx :
      (s.AddMessage role content).Context
        = (if ((s.Context ++ [({ Role := role, Content := content } : Message)]).length : ℤ)
              > s.MaxMessages then
            (s.Context ++ [({ Role := role, Content := content } : Message)]).drop
              (((s.Context ++ [({ Role := role, Content := content } : Message)]).length : ℤ)
                - s.MaxMessages).toNat
          else s.Context ++ [({ Role := role, Content := content } : Message)]) := by
    simp only [ConversationSession.AddMessage]
    split
    · rfl
    · split <;> rfl
  rw [hctx, goTrim_eq_takeLast hm]

theorem AddMessage_MaxMessages (s : ConversationSession) (role content : String) :
    (s.AddMessage role content).MaxMessages = s.MaxMessages := by
  simp only [ConversationSession.AddMessage]
  split
  · rfl
  · split <;> rfl

theorem AddMessage_CurrentVoice (s : ConversationSession) (role content : String) :
    (s.AddMessage role content).CurrentVoice = s.CurrentVoice := by
  simp only [ConversationSession.AddMessage]
  split
  · rfl
  · split <;> rfl

theorem runAdds_Context (msgs : List (String × String)) (s : ConversationSession)
    (hm : 0 ≤ s.MaxMessages) (hlen : s.Context.length ≤ s.MaxMessages.toNat) :
    (runAdds s msgs).Context
        = takeLast s.MaxMessages.toNat
            (s.Context ++ msgs.map fun p => Message.mk p.1 p.2) ∧
    (runAdds s msgs).MaxMessages = s.MaxMessages := by
  induction msgs generalizing s with
  | nil =>
    simpa [runAdds] using (takeLast_eq_self hlen).symm
  | cons p ps ih =>
    have hstep : runAdds s (p :: ps) = runAdds (s.AddMessage p.1 p.2) ps := rfl
    have hmax := AddMessage_MaxMessages s p.1 p.2
    have hm' : 0 ≤ (s.AddMessage p.1 p.2).MaxMessages := by rw [hmax]; exact hm
    have hlen' : (s.AddMessage p.1 p.2).Context.length
        ≤ (s.AddMessage p.1 p.2).MaxMessages.toNat := by
      rw [AddMessage_Context s p.1 p.2 hm, hmax, takeLast_length]
      omega
    obtain ⟨h1, h2⟩ := ih (s.AddMessage p.1 p.2) hm' hlen'
    rw [hstep]
    refine ⟨?_, by rw [h2, hmax]⟩
    rw [h1, hmax, AddMessage_Context s p.1 p.2 hm, takeLast_append_takeLast]
    simp

/-- C1: for every session with `maxMessages ≥ 0` (and the empty history a
session starts with), after any sequence of `AddMessage` calls the context
holds at most `maxMessages` messages, and it is exactly the most recently
appended `min(total, maxMessages)` messages in their original append
order (oldest dropped first). -/
theorem addMessage_window_invariant (s : ConversationSession)
    (msgs : List (String × String)) (hctx : s.Context = []) (hm : 0 ≤ s.MaxMessages) :
    ((runAdds s msgs).Context.length : ℤ) ≤ s.MaxMessages ∧
    (runAdds s msgs).Context
      = (msgs.map fun p => Message.mk p.1 p.2).drop (msgs.length - s.MaxMessages.toNat) := by
  have hlen : s.Context.length ≤ s.MaxMessages.toNat := by rw [hctx]; exact Nat.zero_le _
  obtain ⟨h1, _⟩ := runAdds_Context msgs s hm hlen
  rw [hctx] at h1
  simp only [List.nil_append] at h1
  constructor
  · rw [h1]
    have := takeLast_length s.MaxMessages.toNat (msgs.map fun p => Message.mk p.1 p.2)
    omega
  · rw [h1]
    simp [takeLast]

/-- Witness for C1 at a concrete session (window 2) and three appends. -/
theorem addMessage_window_invariant_witness :
    (((runAdds { NewConversationSession "u" with MaxMessages := 2 }
        [("user", "a"), ("assistant", "b"), ("user", "c")]).Context.length : ℤ)
      ≤ ({ NewConversationSession "u" with MaxMessages := 2 } : ConversationSession).MaxMessages
    ∧ (runAdds { NewConversationSession "u" with MaxMessages := 2 }
        [("user", "a"), ("assistant", "b"), ("user", "c")]).Context
      = ([("user", "a"), ("assistant", "b"), ("user", "c")].map
          fun p => Message.mk p.1 p.2).drop
          ([("user", "a"), ("assistant", "b"), ("user", "c")].length
            - (({ NewConversationSession "u" with MaxMessages := 2 } :
                ConversationSession).MaxMessages).toNat)) :=
  addMessage_window_invariant _ _ rfl (by decide)

/-- C10: `AddMessage` is total for `maxMessages ≥ 0`: the front-trim slice
offset is always in bounds (the checked model never hits the panic case),
and a role other than "user"/"assistant" goes through the same
append-then-trim path while leaving both cached last-turn fields
unchanged. -/
theorem addMessage_total_system_role (s : ConversationSession) (role content : String)
    (hm : 0 ≤ s.MaxMessages) :
    s.AddMessageChecked role content = some (s.AddMessage role content) ∧
    (role ≠ "user" → role ≠ "assistant" →
      (s.AddMessage role content).LastUser = s.LastUser ∧
      (s.AddMessage role content).LastAssistant = s.LastAssistant ∧
      (s.AddMessage role content).Context
        = takeLast s.MaxMessages.toNat
            (s.Context ++ [{ Role := role, Content := content }])) := by
  constructor
  · by_cases hgt :
        ((s.Context ++ [({ Role := role, Content := content } : Message)]).length : ℤ)
          > s.MaxMessages
    · have hb :
          (0 : ℤ) ≤
              ((s.Context ++ [({ Role := role, Content := content } : Message)]).length : ℤ)
                - s.MaxMessages ∧
            ((s.Context ++ [({ Role := role, Content := content } : Message)]).length : ℤ)
                - s.MaxMessages
              ≤ ((s.Context ++ [({ Role := role, Content := content } : Message)]).length : ℤ) := by
        omega
      simp only [ConversationSession.AddMessageChecked, ConversationSession.AddMessage,
        goSliceFrom, if_pos hgt, if_pos hb]
      rfl
    · simp only [ConversationSession.AddMessageChecked, ConversationSession.AddMessage,
        if_neg hgt]
      rfl
  · intro hu ha
    refine ⟨?_, ?_, AddMessage_Context s role content hm⟩
    · simp [ConversationSession.AddMessage, hu, ha]
    · simp [ConversationSession.AddMessage, hu, ha]

theorem getLast?_takeLast_concat {k : Nat} (hk : 1 ≤ k) (l : List α) (u : α) :
    (takeLast k (l ++ [u])).getLast? = some u := by
  rw [takeLast_append_right l [u] (by simpa using hk)]
  exact List.getLast?_concat _

theorem mem_takeLast_pair {k : Nat} (hk : 2 ≤ k) (l : List α) (u a : α) :
    u ∈ takeLast k (l ++ [u, a]) ∧ a ∈ takeLast k (l ++ [u, a]) := by
  rw [takeLast_append_right l [u, a] (by simpa using hk)]
  simp

/-- C5: when STT succeeds but returns whitespace-only text, both
`ProcessAudio` and `ProcessAudioStream` fail with the distinct
"empty transcription" error, never invoke the LLM (the call trace stops at
the STT call), and leave the session unchanged. -/
theorem processAudio_empty_transcript (o : Orchestrator) (s : ConversationSession)
    (audioData : List Nat) (onChunk : List Nat → Except String Unit) (t : String)
    (hstt : o.stt audioData = .ok t) (htrim : trimSpace t = "") :
    (o.ProcessAudio s audioData).error = some "empty transcription" ∧
    (o.ProcessAudio s audioData).session = s ∧
    (o.ProcessAudio s audioData).calls = [.sttCall audioData] ∧
    (o.ProcessAudioStream s audioData onChunk).error = some "empty transcription" ∧
    (o.ProcessAudioStream s audioData onChunk).session = s ∧
    (o.ProcessAudioStream s audioData onChunk).calls = [.sttCall audioData] := by
  simp [Orchestrator.ProcessAudio, Orchestrator.ProcessAudioStream,
    Orchestrator.Transcribe, hstt, htrim]

/-- Witness for C5: a three-space transcript on a fresh session. -/
theorem processAudio_empty_transcript_witness :
    (oBlank.ProcessAudio (NewConversationSession "u") [7]).error
        = some "empty transcription" ∧
    (oBlank.ProcessAudio (NewConversationSession "u") [7]).session
        = NewConversationSession "u" ∧
    (oBlank.ProcessAudio (NewConversationSession "u") [7]).calls = [.sttCall [7]] ∧
    (oBlank.ProcessAudioStream (NewConversationSession "u") [7]
        (fun _ => .ok ())).error = some "empty transcription" ∧
    (oBlank.ProcessAudioStream (NewConversationSession "u") [7]
        (fun _ => .ok ())).session = NewConversationSession "u" ∧
    (oBlank.ProcessAudioStream (NewConversationSession "u") [7]
        (fun _ => .ok ())).calls = [.sttCall [7]] :=
  processAudio_empty_transcript oBlank (NewConversationSession "u") [7]
    (fun _ => .ok ()) "   " rfl (by decide)

/-- C3: when transcription succeeds with non-whitespace text and the
window holds at least one message, the LLM is called exactly once, with
exactly the session's current bounded context after the user turn was
appended; that context's newest entry is the user message carrying the
transcript; and on LLM success the session ends as user turn then
assistant turn (the user turn is appended first). -/
theorem processAudio_llm_sees_context (o : Orchestrator) (s : ConversationSession)
    (audioData : List Nat) (onChunk : List Nat → Except String Unit) (t : String)
    (hmax : 1 ≤ s.MaxMessages)
    (hstt : o.stt audioData = .ok t) (htrim : trimSpace t ≠ "") :
    (o.ProcessAudio s audioData).calls.filter CallEvent.isLLM
        = [.llmCall (s.AddMessage "user" t).Context] ∧
    (o.ProcessAudioStream s audioData onChunk).calls.filter CallEvent.isLLM
        = [.llmCall (s.AddMessage "user" t).Context] ∧
    (s.AddMessage "user" t).Context.getLast? = some { Role := "user", Content := t } ∧
    (∀ resp, o.llm (s.AddMessage "user" t).Context = .ok resp →
      (o.ProcessAudio s audioData).session
          = (s.AddMessage "user" t).AddMessage "assistant" resp ∧
      (o.ProcessAudioStream s audioData onChunk).session
          = (s.AddMessage "user" t).AddMessage "assistant" resp) := by
  have hm0 : 0 ≤ s.MaxMessages := by omega
  refine ⟨?_, ?_, ?_, ?_⟩
  · simp only [Orchestrator.ProcessAudio, Orchestrator.Transcribe,
      Orchestrator.GenerateResponse, Orchestrator.Synthesize, hstt, if_neg htrim]
    cases hllm : o.llm (s.AddMessage "user" t).Context with
    | error e => simp [hllm, CallEvent.isLLM, List.filter]
    | ok resp =>
      cases htts : o.tts resp
          ((s.AddMessage "user" t).AddMessage "assistant" resp).CurrentVoice with
      | error e => simp [hllm, htts, CallEvent.isLLM, List.filter]
      | ok bytes => simp [hllm, htts, CallEvent.isLLM, List.filter]
  · simp only [Orchestrator.ProcessAudioStream, Orchestrator.Transcribe,
      Orchestrator.GenerateResponse, Orchestrator.SynthesizeStream, hstt, if_neg htrim]
    cases hllm : o.llm (s.AddMessage "user" t).Context with
    | error e => simp [hllm, CallEvent.isLLM, List.filter]
    | ok resp =>
      cases htts : o.ttsStream resp
          ((s.AddMessage "user" t).AddMessage "assistant" resp).CurrentVoice onChunk with
      | error e => simp [hllm, htts, CallEvent.isLLM, List.filter]
      | ok u => simp [hllm, htts, CallEvent.isLLM, List.filter]
  · rw [AddMessage_Context s "user" t hm0]
    exact getLast?_takeLast_concat (by omega) _ _
  · intro resp hresp
    constructor
    · simp only [Orchestrator.ProcessAudio, Orchestrator.Transcribe,
        Orchestrator.GenerateResponse, Orchestrator.Synthesize, hstt, if_neg htrim, hresp]
      cases htts : o.tts resp
          ((s.AddMessage "user" t).AddMessage "assistant" resp).CurrentVoice <;> rfl
    · simp only [Orchestrator.ProcessAudioStream, Orchestrator.Transcribe,
        Orchestrator.GenerateResponse, Orchestrator.SynthesizeStream, hstt, if_neg htrim,
        hresp]
      cases htts : o.ttsStream resp
          ((s.AddMessage "user" t).AddMessage "assistant" resp).CurrentVoice onChunk <;> rfl

/-- Witness for C3 with concrete providers and a fresh session. -/
theorem processAudio_llm_sees_context_witness :
    (oGood.ProcessAudio (NewConversationSession "w") [9]).calls.filter CallEvent.isLLM
        = [.llmCall ((NewConversationSession "w").AddMessage "user" "hello").Context] ∧
    ((NewConversationSession "w").AddMessage "user" "hello").Context.getLast?
        = some { Role := "user", Content := "hello" } ∧
    (oGood.ProcessAudio (NewConversationSession "w") [9]).session
        = ((NewConversationSession "w").AddMessage "user" "hello").AddMessage
            "assistant" "hi!" :=
  have h := processAudio_llm_sees_context oGood (NewConversationSession "w") [9]
    (fun _ => .ok ()) "hello" (by decide) rfl (by decide)
  ⟨h.1, h.2.2.1, (h.2.2.2 "hi!" rfl).1⟩
/-- C4 as stated is false: with a one-message window the assistant append
evicts the user turn, so after a failed synthesis the session context no
longer contains the user turn that was appended before the failure. -/
theorem processAudio_tts_failure_counterexample :
    ¬ (({ Role := "user", Content := "hi there" } : Message)
        ∈ (oTTSFail.ProcessAudio
            { NewConversationSession "u" with MaxMessages := 1 } [0]).session.Context) := by
  decide

/-- C4 (amended): if transcription succeeds with non-whitespace text,
generation succeeds and synthesis fails, `ProcessAudio` returns the
transcript together with the stage-wrapped "TTS failed" error, and the
session is exactly the pre-call session with the user turn and then the
assistant turn committed through the windowed append (no rollback); both
turns are still present in the context whenever `maxMessages ≥ 2`. -/
theorem processAudio_tts_failure_keeps_turns (o : Orchestrator)
    (s : ConversationSession) (audioData : List Nat) (t resp e : String)
    (hm : 0 ≤ s.MaxMessages)
    (hstt : o.stt audioData = .ok t) (htrim : trimSpace t ≠ "")
    (hllm : o.llm (s.AddMessage "user" t).Context = .ok resp)
    (htts : o.tts resp s.CurrentVoice = .error e) :
    (o.ProcessAudio s audioData).transcript = t ∧
    (o.ProcessAudio s audioData).error = some ("TTS failed: " ++ e) ∧
    (o.ProcessAudio s audioData).session
        = (s.AddMessage "user" t).AddMessage "assistant" resp ∧
    (2 ≤ s.MaxMessages →
      ({ Role := "user", Content := t } : Message)
          ∈ (o.ProcessAudio s audioData).session.Context ∧
      ({ Role := "assistant", Content := resp } : Message)
          ∈ (o.ProcessAudio s audioData).session.Context) := by
  have hv : ((s.AddMessage "user" t).AddMessage "assistant" resp).CurrentVoice
      = s.CurrentVoice := by
    rw [AddMessage_CurrentVoice, AddMessage_CurrentVoice]
  have hrun : o.ProcessAudio s audioData
      = { transcript := t, audio := [], error := some ("TTS failed: " ++ e)
          session := (s.AddMessage "user" t).AddMessage "assistant" resp
          calls := [.sttCall audioData, .llmCall (s.AddMessage "user" t).Context,
                    .ttsCall resp
                      ((s.AddMessage "user" t).AddMessage "assistant" resp).CurrentVoice] } := by
    simp only [Orchestrator.ProcessAudio, Orchestrator.Transcribe,
      Orchestrator.GenerateResponse, Orchestrator.Synthesize, hstt, if_neg htrim, hllm,
      hv, htts]
  refine ⟨by rw [hrun], by rw [hrun], by rw [hrun], fun h2 => ?_⟩
  rw [hrun]
  have hm1 : (s.AddMessage "user" t).MaxMessages = s.MaxMessages :=
    AddMessage_MaxMessages s "user" t
  have hctx : ((s.AddMessage "user" t).AddMessage "assistant" resp).Context
      = takeLast s.MaxMessages.toNat
          (s.Context ++ [{ Role := "user", Content := t },
                         { Role := "assistant", Content := resp }]) := by
    rw [AddMessage_Context _ "assistant" resp (by rw [hm1]; omega), hm1,
      AddMessage_Context s "user" t hm, takeLast_append_takeLast]
    simp
  simp only [hctx]
  exact mem_takeLast_pair (by omega) s.Context _ _

/-- Witness for C4 (amended) with concrete failing synthesis and the
default 20-message window. -/
theorem processAudio_tts_failure_keeps_turns_witness :
    (oTTSFail.ProcessAudio (NewConversationSession "u") [0]).transcript = "hi there" ∧
    (oTTSFail.ProcessAudio (NewConversationSession "u") [0]).error
        = some ("TTS failed: " ++ "boom") ∧
    ({ Role := "user", Content := "hi there" } : Message)
        ∈ (oTTSFail.ProcessAudio (NewConversationSession "u") [0]).session.Context ∧
    ({ Role := "assistant", Content := "yo" } : Message)
        ∈ (oTTSFail.ProcessAudio (NewConversationSession "u") [0]).session.Context :=
  have h := processAudio_tts_failure_keeps_turns oTTSFail (NewConversationSession "u")
    [0] "hi there" "yo" "boom" (by decide) rfl (by decide) rfl rfl
  ⟨h.1, h.2.1, (h.2.2.2 (by decide)).1, (h.2.2.2 (by decide)).2⟩

/-- Witness for C10: a "system" message on a fresh session. -/
theorem addMessage_total_system_role_witness :
    (NewConversationSession "u").AddMessageChecked "system" "be brief"
      = some ((NewConversationSession "u").AddMessage "system" "be brief") ∧
    ((NewConversationSession "u").AddMessage "system" "be brief").LastUser
      = (NewConversationSession "u").LastUser ∧
    ((NewConversationSession "u").AddMessage "system" "be brief").LastAssistant
      = (NewConversationSession "u").LastAssistant :=
  have h := addMessage_total_system_role (NewConversationSession "u") "system" "be brief"
    (by decide)
  ⟨h.1, (h.2 (by decide) (by decide)).1, (h.2 (by decide) (by decide)).2.1⟩

theorem preState_threshold (v : RMSVAD) (rms : Option ℚ) :
    (v.preState rms).threshold = v.threshold := by
  unfold RMSVAD.preState RMSVAD.adaptStage
  dsimp only
  repeat' split
  all_goals rfl

theorem preState_adaptiveMode (v : RMSVAD) (rms : Option ℚ) :
    (v.preState rms).adaptiveMode = v.adaptiveMode := by
  unfold RMSVAD.preState RMSVAD.adaptStage
  dsimp only
  repeat' split
  all_goals rfl

theorem preState_isSpeaking (v : RMSVAD) (rms : Option ℚ) :
    (v.preState rms).isSpeaking = v.isSpeaking := by
  unfold RMSVAD.preState RMSVAD.adaptStage
  dsimp only
  repeat' split
  all_goals rfl

theorem preState_consecutiveFrames (v : RMSVAD) (rms : Option ℚ) :
    (v.preState rms).consecutiveFrames = v.consecutiveFrames := by
  unfold RMSVAD.preState RMSVAD.adaptStage
  dsimp only
  repeat' split
  all_goals rfl

theorem preState_minConfirmed (v : RMSVAD) (rms : Option ℚ) :
    (v.preState rms).minConfirmed = v.minConfirmed := by
  unfold RMSVAD.preState RMSVAD.adaptStage
  dsimp only
  repeat' split
  all_goals rfl

theorem preState_silenceStart (v : RMSVAD) (rms : Option ℚ) :
    (v.preState rms).silenceStart = v.silenceStart := by
  unfold RMSVAD.preState RMSVAD.adaptStage
  dsimp only
  repeat' split
  all_goals rfl

theorem preState_silenceLimit (v : RMSVAD) (rms : Option ℚ) :
    (v.preState rms).silenceLimit = v.silenceLimit := by
  unfold RMSVAD.preState RMSVAD.adaptStage
  dsimp only
  repeat' split
  all_goals rfl

/-- C2 as stated is false: a freshly constructed (hence reachable)
detector with static threshold 0.4 (> 0.3) and adaptive mode on computes
an effective threshold of 0.3, strictly below the static threshold. -/
theorem effective_threshold_counterexample :
    (NewRMSVAD (mkRat 2 5) 1000).effAt (some 0)
      < (NewRMSVAD (mkRat 2 5) 1000).threshold := by
  decide

/-- C2 (amended): with adaptive mode on, the effective threshold used to
classify any frame never exceeds 0.3 and never falls below
`min(static threshold, 0.3)`; in particular it never falls below the
static threshold whenever that threshold is at most 0.3 (for larger
static thresholds the 0.3 cap pulls the effective threshold below the
static one). -/
theorem effective_threshold_bounds (v : RMSVAD) (rms : Option ℚ)
    (ha : v.adaptiveMode = true) :
    v.effAt rms ≤ mkRat 3 10 ∧
    min v.threshold (mkRat 3 10) ≤ v.effAt rms ∧
    (v.threshold ≤ mkRat 3 10 → v.threshold ≤ v.effAt rms) := by
  have hthr := preState_threshold v rms
  have hada := preState_adaptiveMode v rms
  unfold RMSVAD.effAt RMSVAD.effectiveThreshold
  rw [hada, ha, hthr]
  simp only [if_true]
  by_cases h1 : (v.preState rms).noiseFloor * 2 > v.threshold
  · rw [if_pos h1]
    by_cases h2 : (v.preState rms).noiseFloor * 2 > mkRat 3 10
    · rw [if_pos h2]
      exact ⟨le_refl _, min_le_right _ _, fun ht => ht⟩
    · rw [if_neg h2]
      push_neg at h2
      exact ⟨h2, le_trans (min_le_left _ _) (le_of_lt h1), fun _ => le_of_lt h1⟩
  · rw [if_neg h1]
    by_cases h2 : v.threshold > mkRat 3 10
    · rw [if_pos h2]
      exact ⟨le_refl _, min_le_right _ _, fun ht => absurd h2 (not_lt.mpr ht)⟩
    · rw [if_neg h2]
      push_neg at h2
      exact ⟨h2, min_le_left _ _, fun _ => le_refl _⟩

/-- Witness for C2 (amended) on a fresh detector with threshold 0.1. -/
theorem effective_threshold_bounds_witness :
    (NewRMSVAD (mkRat 1 10) 50).effAt (some 0) ≤ mkRat 3 10 ∧
    min (NewRMSVAD (mkRat 1 10) 50).threshold (mkRat 3 10)
        ≤ (NewRMSVAD (mkRat 1 10) 50).effAt (some 0) ∧
    (NewRMSVAD (mkRat 1 10) 50).threshold ≤ (NewRMSVAD (mkRat 1 10) 50).effAt (some 0) :=
  have h := effective_threshold_bounds (NewRMSVAD (mkRat 1 10) 50) (some 0) rfl
  ⟨h.1, h.2.1, h.2.2 (by decide)⟩

/-- C8 as stated is false: `Reset` does not restore the noise floor, so
after one quiet frame (which snaps the floor from 0.005 down to 0) the
reset detector differs from a freshly constructed one with the same
threshold and silence limit. -/
theorem reset_counterexample :
    (((NewRMSVAD (mkRat 1 10) 1000).Process (fun q => q) [] 0).state).Reset
      ≠ NewRMSVAD (mkRat 1 10) 1000 := by
  decide

/-- C8 (amended): `Reset` returns the detector to the not-speaking state
of a fresh detector — speaking flag, silence timer and consecutive-frame
counter match a freshly constructed detector with the same threshold and
silence limit — but it keeps the adapted noise floor and the recorded
last-frame energy (and the other configuration fields) unchanged. -/
theorem reset_clears_speech_state (v : RMSVAD) :
    (v.Reset).isSpeaking = (NewRMSVAD v.threshold v.silenceLimit).isSpeaking ∧
    (v.Reset).silenceStart = (NewRMSVAD v.threshold v.silenceLimit).silenceStart ∧
    (v.Reset).consecutiveFrames
        = (NewRMSVAD v.threshold v.silenceLimit).consecutiveFrames ∧
    (v.Reset).threshold = v.threshold ∧
    (v.Reset).silenceLimit = v.silenceLimit ∧
    (v.Reset).adaptiveMode = v.adaptiveMode ∧
    (v.Reset).noiseFloor = v.noiseFloor ∧
    (v.Reset).alpha = v.alpha ∧
    (v.Reset).minConfirmed = v.minConfirmed ∧
    (v.Reset).lastRMS = v.lastRMS :=
  ⟨rfl, rfl, rfl, rfl, rfl, rfl, rfl, rfl, rfl, rfl⟩

/-- C9: `Clone` copies only the threshold, silence limit and confirmation
count; the clone starts not speaking with adaptive mode disabled, zero
noise floor and zero smoothing coefficient, whatever the original's
settings were; and as a Go value-copy it shares no state with the
original (captured here by the clone depending on nothing but the three
copied fields). -/
theorem clone_copies_only_static (v : RMSVAD) :
    (v.Clone).threshold = v.threshold ∧
    (v.Clone).silenceLimit = v.silenceLimit ∧
    (v.Clone).minConfirmed = v.minConfirmed ∧
    (v.Clone).adaptiveMode = false ∧
    (v.Clone).noiseFloor = 0 ∧
    (v.Clone).alpha = 0 ∧
    (v.Clone).isSpeaking = false ∧
    (v.Clone).silenceStart = none ∧
    (v.Clone).consecutiveFrames = 0 ∧
    (v.Clone).lastRMS = some 0 ∧
    (∀ w : RMSVAD, w.threshold = v.threshold → w.silenceLimit = v.silenceLimit →
      w.minConfirmed = v.minConfirmed → w.Clone = v.Clone) := by
  refine ⟨rfl, rfl, rfl, rfl, rfl, rfl, rfl, rfl, rfl, rfl, fun w h1 h2 h3 => ?_⟩
  simp [RMSVAD.Clone, h1, h2, h3]

/-- Witness for C9: a detector with mutated dynamic state clones to the
same value as a fresh detector sharing its three static fields. -/
theorem clone_copies_only_static_witness :
    ({ NewRMSVAD (mkRat 1 10) 500 with
        isSpeaking := true, noiseFloor := mkRat 7 100, consecutiveFrames := 42
        lastRMS := none, silenceStart := some 3 } : RMSVAD).Clone.adaptiveMode = false ∧
    ({ NewRMSVAD (mkRat 1 10) 500 with
        isSpeaking := true, noiseFloor := mkRat 7 100, consecutiveFrames := 42
        lastRMS := none, silenceStart := some 3 } : RMSVAD).Clone.noiseFloor = 0 ∧
    ({ NewRMSVAD (mkRat 1 10) 500 with
        isSpeaking := true, noiseFloor := mkRat 7 100, consecutiveFrames := 42
        lastRMS := none, silenceStart := some 3 } : RMSVAD).Clone.alpha = 0 ∧
    (NewRMSVAD (mkRat 1 10) 500).Clone
        = ({ NewRMSVAD (mkRat 1 10) 500 with
              isSpeaking := true, noiseFloor := mkRat 7 100, consecutiveFrames := 42
              lastRMS := none, silenceStart := some 3 } : RMSVAD).Clone :=
  have h := clone_copies_only_static
    ({ NewRMSVAD (mkRat 1 10) 500 with
        isSpeaking := true, noiseFloor := mkRat 7 100, consecutiveFrames := 42
        lastRMS := none, silenceStart := some 3 } : RMSVAD)
  ⟨h.2.2.2.1, h.2.2.2.2.1, h.2.2.2.2.2.1,
   h.2.2.2.2.2.2.2.2.2.2 (NewRMSVAD (mkRat 1 10) 500) rfl rfl rfl⟩

theorem sumSquares_concat_even (x : Nat) :
    ∀ l : List Nat, l.length % 2 = 0 → sumSquares (l ++ [x]) = sumSquares l
  | [], _ => by simp [sumSquares]
  | [a], h => by simp at h
  | a :: b :: rest, h => by
    have ih := sumSquares_concat_even x rest (by
      simp only [List.length_cons] at h
      omega)
    simp only [List.cons_append, sumSquares, List.append_eq]
    rw [ih]

/-- C7 as stated is false for a single-byte frame: the Go code divides by
`len(chunk)/2 = 0` and gets a NaN energy, which skips the noise-floor
snap-down that the truncated (empty) frame's energy 0 performs, so the
resulting detector states differ. -/
theorem process_one_byte_counterexample :
    (NewRMSVAD (mkRat 1 10) 1000).Process (fun q => q) [0] 0
      ≠ (NewRMSVAD (mkRat 1 10) 1000).Process (fun q => q)
          (([0] : List Nat).dropLast) 0 := by
  decide

/-- C7 (amended): `Process` never returns an error on any byte sequence;
an empty frame yields energy 0; and an odd-length frame with at least one
complete sample (length ≥ 3) produces the same event and the same
resulting state as the frame truncated to its last complete 2-byte
sample. (A single-byte frame instead yields the NaN energy `Sqrt(0/0)`,
which is classified below threshold but skips the noise-floor update the
empty frame would perform.) -/
theorem process_never_errs_truncates_odd (sqrtF : ℚ → ℚ) (v : RMSVAD) (now : ℤ) :
    (∀ chunk : List Nat, (v.Process sqrtF chunk now).err = none) ∧
    calculateRMS sqrtF [] = some 0 ∧
    (∀ chunk : List Nat, chunk.length % 2 = 1 → 3 ≤ chunk.length →
      v.Process sqrtF chunk now = v.Process sqrtF chunk.dropLast now) := by
  refine ⟨fun chunk => rfl, rfl, fun chunk hodd h3 => ?_⟩
  have hne : chunk ≠ [] := by
    intro hc
    rw [hc] at h3
    simp at h3
  have hlen : chunk.dropLast.length = chunk.length - 1 := List.length_dropLast chunk
  have hsum : sumSquares chunk = sumSquares chunk.dropLast := by
    conv_lhs => rw [← List.dropLast_append_getLast hne]
    rw [sumSquares_concat_even _ _ (by rw [hlen]; omega)]
  have hcalc : calculateRMS sqrtF chunk = calculateRMS sqrtF chunk.dropLast := by
    unfold calculateRMS
    rw [hsum, hlen]
    rw [if_neg (by omega : ¬ chunk.length = 0),
        if_neg (by omega : ¬ chunk.length - 1 = 0)]
    have hdiv : chunk.length / 2 = (chunk.length - 1) / 2 := by omega
    rw [hdiv]
  unfold RMSVAD.Process
  rw [hcalc]

/-- Witness for C7 (amended): a 3-byte frame behaves as its 2-byte
truncation. -/
theorem process_never_errs_truncates_odd_witness :
    ((NewRMSVAD (mkRat 1 10) 1000).Process (fun q => q) [5] 0).err = none ∧
    calculateRMS (fun q => q) [] = some 0 ∧
    (NewRMSVAD (mkRat 1 10) 1000).Process (fun q => q) [1, 2, 3] 0
      = (NewRMSVAD (mkRat 1 10) 1000).Process (fun q => q)
          (([1, 2, 3] : List Nat).dropLast) 0 :=
  have h := process_never_errs_truncates_odd (fun q => q)
    (NewRMSVAD (mkRat 1 10) 1000) 0
  ⟨h.1 [5], h.2.1, h.2.2 [1, 2, 3] (by decide) (by decide)⟩

theorem runVAD_cons (v : RMSVAD) (f : ℚ × ℤ) (fs : List (ℚ × ℤ)) :
    v.runVAD (f :: fs)
      = (((v.processRMS (some f.1) f.2).1.runVAD fs).1,
         (v.processRMS (some f.1) f.2).2
           :: ((v.processRMS (some f.1) f.2).1.runVAD fs).2) := rfl

theorem allBelowB_cons (v : RMSVAD) (f : ℚ × ℤ) (fs : List (ℚ × ℤ)) :
    v.allBelowB (f :: fs)
      = (!egt (some f.1) (v.effAt (some f.1))
          && (v.processRMS (some f.1) f.2).1.allBelowB fs) := rfl

theorem allAboveB_cons (v : RMSVAD) (f : ℚ × ℤ) (fs : List (ℚ × ℤ)) :
    v.allAboveB (f :: fs)
      = (egt (some f.1) (v.effAt (some f.1))
          && (v.processRMS (some f.1) f.2).1.allAboveB fs) := rfl

theorem processRMS_below_notSpeaking (v : RMSVAD) (r : ℚ) (t : ℤ)
    (hs : v.isSpeaking = false)
    (hb : egt (some r) (v.effAt (some r)) = false) :
    v.processRMS (some r) t
      = ({ v.preState (some r) with consecutiveFrames := 0 },
         some { Typ := .silence, Timestamp := unixMilli t }) := by
  have hsp := preState_isSpeaking v (some r)
  unfold RMSVAD.effAt at hb
  unfold RMSVAD.processRMS
  dsimp only
  rw [hb, hsp, hs]
  rfl

theorem processRMS_above_pending (v : RMSVAD) (r : ℚ) (t : ℤ)
    (hs : v.isSpeaking = false)
    (ha : egt (some r) (v.effAt (some r)) = true)
    (hc : v.consecutiveFrames + 1 < v.minConfirmed) :
    v.processRMS (some r) t
      = ({ v.preState (some r) with consecutiveFrames := v.consecutiveFrames + 1 },
         none) := by
  have hsp := preState_isSpeaking v (some r)
  have hcf := preState_consecutiveFrames v (some r)
  have hmc := preState_minConfirmed v (some r)
  unfold RMSVAD.effAt at ha
  unfold RMSVAD.processRMS
  dsimp only
  rw [ha, hsp, hs, hcf, hmc]
  rw [if_neg (by omega : ¬ v.consecutiveFrames + 1 ≥ v.minConfirmed)]
  rfl

theorem processRMS_above_confirm (v : RMSVAD) (r : ℚ) (t : ℤ)
    (hs : v.isSpeaking = false)
    (ha : egt (some r) (v.effAt (some r)) = true)
    (hc : v.minConfirmed ≤ v.consecutiveFrames + 1) :
    v.processRMS (some r) t
      = ({ v.preState (some r) with
            consecutiveFrames := v.consecutiveFrames + 1
            isSpeaking := true },
         some { Typ := .speechStart, Timestamp := unixMilli t }) := by
  have hsp := preState_isSpeaking v (some r)
  have hcf := preState_consecutiveFrames v (some r)
  have hmc := preState_minConfirmed v (some r)
  unfold RMSVAD.effAt at ha
  unfold RMSVAD.processRMS
  dsimp only
  rw [ha, hsp, hs, hcf, hmc]
  rw [if_pos (by omega : v.consecutiveFrames + 1 ≥ v.minConfirmed)]
  rfl

theorem processRMS_above_speaking (v : RMSVAD) (r : ℚ) (t : ℤ)
    (hs : v.isSpeaking = true)
    (ha : egt (some r) (v.effAt (some r)) = true) :
    v.processRMS (some r) t
      = ({ v.preState (some r) with
            consecutiveFrames := v.consecutiveFrames + 1
            silenceStart := none },
         none) := by
  have hsp := preState_isSpeaking v (some r)
  have hcf := preState_consecutiveFrames v (some r)
  unfold RMSVAD.effAt at ha
  unfold RMSVAD.processRMS
  dsimp only
  rw [ha, hsp, hs, hcf]
  rfl

theorem runVAD_below_silence (fs : List (ℚ × ℤ)) :
    ∀ v : RMSVAD, v.isSpeaking = false → v.allBelowB fs = true →
      (v.runVAD fs).2
          = fs.map (fun f => some { Typ := VADEventType.silence
                                    Timestamp := unixMilli f.2 }) ∧
      (v.runVAD fs).1.isSpeaking = false := by
  induction fs with
  | nil => exact fun v hs _ => ⟨rfl, hs⟩
  | cons f rest ih =>
    intro v hs hb
    rw [allBelowB_cons, Bool.and_eq_true, Bool.not_eq_true'] at hb
    obtain ⟨hb1, hb2⟩ := hb
    have hstep := processRMS_below_notSpeaking v f.1 f.2 hs hb1
    have hs' : (v.processRMS (some f.1) f.2).1.isSpeaking = false := by
      rw [hstep]
      show (v.preState (some f.1)).isSpeaking = false
      rw [preState_isSpeaking]
      exact hs
    obtain ⟨ih1, ih2⟩ := ih (v.processRMS (some f.1) f.2).1 hs' hb2
    rw [runVAD_cons]
    refine ⟨?_, ih2⟩
    rw [List.map_cons]
    rw [ih1, show (v.processRMS (some f.1) f.2).2
        = some { Typ := VADEventType.silence, Timestamp := unixMilli f.2 } by
      rw [hstep]]

theorem runVAD_pending (fs : List (ℚ × ℤ)) :
    ∀ v : RMSVAD, v.isSpeaking = false → v.allAboveB fs = true →
      v.consecutiveFrames + (fs.length : ℤ) < v.minConfirmed →
      (v.runVAD fs).2 = List.replicate fs.length none ∧
      (v.runVAD fs).1.isSpeaking = false ∧
      (v.runVAD fs).1.consecutiveFrames = v.consecutiveFrames + (fs.length : ℤ) ∧
      (v.runVAD fs).1.minConfirmed = v.minConfirmed := by
  induction fs with
  | nil =>
    refine fun v hs _ _ => ⟨rfl, hs, ?_, rfl⟩
    show v.consecutiveFrames = v.consecutiveFrames + ((0 : ℕ) : ℤ)
    simp
  | cons f rest ih =>
    intro v hs ha hc
    rw [allAboveB_cons, Bool.and_eq_true] at ha
    obtain ⟨ha1, ha2⟩ := ha
    have hlen : ((f :: rest).length : ℤ) = (rest.length : ℤ) + 1 := by
      simp [List.length_cons]
    have hstep := processRMS_above_pending v f.1 f.2 hs ha1 (by
      rw [hlen] at hc
      omega)
    have hs' : (v.processRMS (some f.1) f.2).1.isSpeaking = false := by
      rw [hstep]
      show (v.preState (some f.1)).isSpeaking = false
      rw [preState_isSpeaking]
      exact hs
    have hcf' : (v.processRMS (some f.1) f.2).1.consecutiveFrames
        = v.consecutiveFrames + 1 := by
      rw [hstep]
    have hmc' : (v.processRMS (some f.1) f.2).1.minConfirmed = v.minConfirmed := by
      rw [hstep]
      show (v.preState (some f.1)).minConfirmed = v.minConfirmed
      rw [preState_minConfirmed]
    obtain ⟨ih1, ih2, ih3, ih4⟩ := ih (v.processRMS (some f.1) f.2).1 hs' ha2 (by
      rw [hcf', hmc']
      rw [hlen] at hc
      omega)
    rw [runVAD_cons]
    refine ⟨?_, ih2, ?_, by rw [ih4, hmc']⟩
    · rw [show (v.processRMS (some f.1) f.2).2 = none by rw [hstep], ih1,
        List.length_cons, List.replicate_succ]
    · rw [ih3, hcf', hlen]
      ring

theorem runVAD_speaking_above (fs : List (ℚ × ℤ)) :
    ∀ v : RMSVAD, v.isSpeaking = true → v.allAboveB fs = true →
      (v.runVAD fs).2 = List.replicate fs.length none ∧
      (v.runVAD fs).1.isSpeaking = true := by
  induction fs with
  | nil => exact fun v hs _ => ⟨rfl, hs⟩
  | cons f rest ih =>
    intro v hs ha
    rw [allAboveB_cons, Bool.and_eq_true] at ha
    obtain ⟨ha1, ha2⟩ := ha
    have hstep := processRMS_above_speaking v f.1 f.2 hs ha1
    have hs' : (v.processRMS (some f.1) f.2).1.isSpeaking = true := by
      rw [hstep]
      show (v.preState (some f.1)).isSpeaking = true
      rw [preState_isSpeaking]
      exact hs
    obtain ⟨ih1, ih2⟩ := ih (v.processRMS (some f.1) f.2).1 hs' ha2
    rw [runVAD_cons]
    refine ⟨?_, ih2⟩
    rw [show (v.processRMS (some f.1) f.2).2 = none by rw [hstep], ih1,
      List.length_cons, List.replicate_succ]

theorem runVAD_append (as bs : List (ℚ × ℤ)) :
    ∀ v : RMSVAD,
      (v.runVAD (as ++ bs)).2
          = (v.runVAD as).2 ++ ((v.runVAD as).1.runVAD bs).2 ∧
      (v.runVAD (as ++ bs)).1 = ((v.runVAD as).1.runVAD bs).1 := by
  induction as with
  | nil => exact fun v => ⟨rfl, rfl⟩
  | cons f rest ih =>
    intro v
    obtain ⟨h1, h2⟩ := ih (v.processRMS (some f.1) f.2).1
    rw [List.cons_append, runVAD_cons, runVAD_cons]
    exact ⟨by rw [List.cons_append, h1], h2⟩

theorem allAboveB_append (as bs : List (ℚ × ℤ)) :
    ∀ v : RMSVAD, v.allAboveB (as ++ bs) = true →
      v.allAboveB as = true ∧ (v.runVAD as).1.allAboveB bs = true := by
  induction as with
  | nil => exact fun v h => ⟨rfl, h⟩
  | cons f rest ih =>
    intro v h
    rw [List.cons_append, allAboveB_cons, Bool.and_eq_true] at h
    obtain ⟨h1, h2⟩ := ih _ h.2
    refine ⟨?_, ?_⟩
    · rw [allAboveB_cons, Bool.and_eq_true]
      exact ⟨h.1, h1⟩
    · rw [runVAD_cons]
      exact h2

/-- C6: on a freshly constructed detector, a frame sequence whose energy
never exceeds the per-frame effective threshold emits no SpeechStart; a
run of at least `minConfirmed` (= 7 for a fresh detector) consecutive
frames whose energy exceeds the per-frame effective threshold emits
exactly one SpeechStart, on the 7th frame of the run, with no event at
all on the six earlier frames (and none on the later ones). -/
theorem vad_speechStart_confirmation (t : ℚ) (sl : ℤ) :
    (∀ frames : List (ℚ × ℤ), (NewRMSVAD t sl).allBelowB frames = true →
      (((NewRMSVAD t sl).runVAD frames).2.all fun ev => !isStartEv ev) = true) ∧
    (∀ frames : List (ℚ × ℤ), (NewRMSVAD t sl).allAboveB frames = true →
      7 ≤ frames.length →
      ((NewRMSVAD t sl).runVAD frames).2
        = List.replicate 6 none
            ++ some { Typ := VADEventType.speechStart
                      Timestamp := unixMilli (frames.getD 6 ((0 : ℚ), (0 : ℤ))).2 }
              :: List.replicate (frames.length - 7) none) := by
  constructor
  · intro frames hb
    obtain ⟨h1, _⟩ := runVAD_below_silence frames (NewRMSVAD t sl) rfl hb
    rw [h1, List.all_eq_true]
    intro ev hev
    rw [List.mem_map] at hev
    obtain ⟨f, _, hf⟩ := hev
    rw [← hf]
    rfl
  · intro frames hab hlen7
    have hlt : 6 < frames.length := by omega
    have htk : (frames.take 6).length = 6 := by rw [List.length_take]; omega
    have hsplit : frames = frames.take 6 ++ frames[6] :: frames.drop 7 := by
      conv_lhs => rw [← List.take_append_drop 6 frames]
      rw [List.drop_eq_getElem_cons hlt]
    have hab' : (NewRMSVAD t sl).allAboveB
        (frames.take 6 ++ frames[6] :: frames.drop 7) = true := by
      rw [← hsplit]
      exact hab
    obtain ⟨hab1, hab2⟩ := allAboveB_append _ _ _ hab'
    rw [allAboveB_cons, Bool.and_eq_true] at hab2
    obtain ⟨habf, habrest⟩ := hab2
    obtain ⟨he1, hs6, hc6, hm6⟩ := runVAD_pending (frames.take 6) (NewRMSVAD t sl)
      rfl hab1 (by
        rw [htk]
        show (0 : ℤ) + ((6 : ℕ) : ℤ) < 7
        decide)
    have hstart := processRMS_above_confirm
      (((NewRMSVAD t sl).runVAD (frames.take 6)).1)
      frames[6].1 frames[6].2 hs6 habf (by
        rw [hc6, hm6, htk]
        show (7 : ℤ) ≤ 0 + ((6 : ℕ) : ℤ) + 1
        decide)
    have hs7 : ((((NewRMSVAD t sl).runVAD (frames.take 6)).1.processRMS
        (some frames[6].1) frames[6].2).1).isSpeaking = true := by
      rw [hstart]
    obtain ⟨he3, _⟩ := runVAD_speaking_above (frames.drop 7) _ hs7 habrest
    have hd7 : (frames.drop 7).length = frames.length - 7 := List.length_drop 7 frames
    conv_lhs => rw [hsplit]
    obtain ⟨happ2, -⟩ := runVAD_append (frames.take 6) (frames[6] :: frames.drop 7)
      (NewRMSVAD t sl)
    rw [happ2, he1, htk, runVAD_cons]
    rw [show (((NewRMSVAD t sl).runVAD (frames.take 6)).1.processRMS
          (some frames[6].1) frames[6].2).2
        = some { Typ := VADEventType.speechStart
                 Timestamp := unixMilli frames[6].2 } by rw [hstart]]
    rw [he3, hd7, List.getD_eq_getElem frames ((0 : ℚ), (0 : ℤ)) hlt]

/-- Witness for C6: two quiet frames emit no SpeechStart; seven loud
frames emit exactly one SpeechStart, on the seventh frame. -/
theorem vad_speechStart_confirmation_witness :
    ((((NewRMSVAD (mkRat 1 10) 1000).runVAD
        [(mkRat 1 100, 0), (mkRat 1 100, 10)]).2.all fun ev => !isStartEv ev) = true) ∧
    ((NewRMSVAD (mkRat 1 10) 1000).runVAD
        (List.replicate 7 ((mkRat 1 2 : ℚ), (0 : ℤ)))).2
      = List.replicate 6 none
          ++ some { Typ := VADEventType.speechStart
                    Timestamp := unixMilli ((List.replicate 7
                      ((mkRat 1 2 : ℚ), (0 : ℤ))).getD 6 ((0 : ℚ), (0 : ℤ))).2 }
            :: List.replicate ((List.replicate 7
                  ((mkRat 1 2 : ℚ), (0 : ℤ))).length - 7) none :=
  have h := vad_speechStart_confirmation (mkRat 1 10) 1000
  ⟨h.1 [(mkRat 1 100, 0), (mkRat 1 100, 10)] (by decide),
   h.2 (List.replicate 7 ((mkRat 1 2 : ℚ), (0 : ℤ))) (by decide) (by decide)⟩

end Lokutor
